import Mathlib

/-!
Shallow embedding of the HireCharm onboarding API (`src/api/main.py`).

The two endpoints are translated as pure functions over an explicit store:

* `submit_onboarding` mirrors the POST `/onboarding/submit` handler: client
  resolution (verbatim id, or lookup/create by company name), the parent
  `client_onboarding_submissions` insert, the `client_segments` and
  `client_personas` child loops with their skip rules, and the final commit.
  Database statements are numbered in execution order and an injectable
  failure oracle (`Nat → Option String`) models storage errors raised by
  `session.execute`/`session.commit`; a failure aborts the transaction, so
  only a final commit publishes the buffered rows (rollback discards them).
* `get_submission` mirrors the GET `/onboarding/{submission_id}` handler:
  parent lookup, child queries ordered by the stored order column.

Python truthiness (`if not client_id`, `x or y`, `dict.get`) is modelled
explicitly by `pyTruthyStr` / `pyTruthyInt` on optional values, and
identifier generation (`uuid4`) by an identifier supply `Nat → String`
consumed in the program's generation order.
-/

/-- A value that may arrive as an integer or as a string
(the `self_serve_pct` payload field, annotated `Optional[Any]`). -/
inductive IntOrStr where
  | int (n : Int)
  | str (s : String)
deriving Repr, DecidableEq

/-- Python truthiness of an optional string attribute:
`None` and `""` are falsy, any other string is truthy. -/
def pyTruthyStr : Option String → Bool
  | none => false
  | some s => s != ""

/-- Python truthiness of an optional integer: `None` and `0` are falsy. -/
def pyTruthyInt : Option Int → Bool
  | none => false
  | some n => n != 0

/-- One raw entry of the `segments` payload array (a plain dict in the
source, accessed with `.get`), with both alias spellings of the name and
revenue fields. `none` models an absent key. -/
structure SegEntry where
  name : Option String := none
  segment_name : Option String := none
  revenue_pct : Option Int := none
  revenue_percentage : Option Int := none
  unique_characteristics : Option String := none
  pain_points : Option String := none
  buying_triggers : Option String := none
deriving Repr, DecidableEq

/-- One raw entry of the `personas` payload array (a plain dict in the
source, accessed with `.get`). -/
structure PersonaEntry where
  job_title : Option String := none
  primary_segment : Option String := none
  seniority_level : Option String := none
  pain_before_buying : Option String := none
  aha_moment : Option String := none
  objections : Option String := none
  decision_criteria : Option String := none
deriving Repr, DecidableEq

/-- The `OnboardingSubmission` payload model, with the pydantic defaults. -/
structure Payload where
  client_id : Option String := none
  company_name : Option String := none
  website : Option String := none
  contact_name : Option String := none
  contact_email : Option String := none
  employee_count : Option String := none
  funding_stage : Option String := none
  hq_location : Option String := none
  core_product : Option String := none
  target_customer : Option String := none
  annual_revenue : Option String := none
  acv : Option String := none
  sales_cycle_length : Option String := none
  self_serve_pct : Option IntOrStr := none
  signals : Option (List String) := some []
  signal_details : Option (List (String × String)) := none
  custom_signals : Option (List String) := some []
  segments : Option (List SegEntry) := some []
  personas : Option (List PersonaEntry) := some []
  job_titles : Option (List String) := some []
  outbound_tools : Option (List String) := some []
  outbound_tools_other : Option String := none
  crm : Option String := none
  lead_sources : Option (List String) := some []
  other_channels : Option (List String) := some []
  customer_voice : Option String := none
  roi_results : Option String := none
  case_studies_description : Option String := none
  case_studies : Option (List (List (String × String))) := some []
  tone_style : Option String := none
  messaging_notes : Option String := none
  key_differentiators : Option (List String) := some []
  competitors : Option (List String) := some []
  primary_gtm_objective : Option String := none
  primary_gtm_objective_other : Option String := none
  success_metrics : Option (List String) := some []
  success_definition : Option String := none
  timeline_urgency : Option String := none
  monthly_budget : Option String := none
deriving Repr, DecidableEq

/-- A row of the `clients` table. -/
structure ClientRow where
  id : String
  name : String
  created_at : String
deriving Repr, DecidableEq

/-- A row of the `client_onboarding_submissions` table, with exactly the
columns of the INSERT in `submit_onboarding`. -/
structure SubmissionRow where
  id : String
  client_id : String
  submission_version : Int
  company_name : Option String
  website : Option String
  contact_name : Option String
  contact_email : Option String
  employee_count : Option String
  funding_stage : Option String
  hq_location : Option String
  core_product : Option String
  target_customer : Option String
  annual_revenue : Option String
  acv : Option String
  sales_cycle_length : Option String
  self_serve_pct : Option String
  signals : List String
  signal_details : Option String
  job_titles : List String
  outbound_tools : List String
  outbound_tools_other : Option String
  crm : Option String
  lead_sources : List String
  customer_voice : Option String
  roi_results : Option String
  case_studies_description : Option String
  case_studies : Option String
  tone_style : Option String
  messaging_notes : Option String
  primary_gtm_objective : Option String
  primary_gtm_objective_other : Option String
  success_metrics : List String
  success_definition : Option String
  timeline_urgency : Option String
  monthly_budget : Option String
  submission_status : String
  submitted_at : String
  created_at : String
deriving Repr, DecidableEq

/-- A row of the `client_segments` table. -/
structure SegmentRow where
  id : String
  submission_id : String
  segment_order : Nat
  segment_name : String
  revenue_percentage : Option Int
  unique_characteristics : Option String
  pain_points : Option String
  buying_triggers : Option String
  created_at : String
deriving Repr, DecidableEq

/-- A row of the `client_personas` table. -/
structure PersonaRow where
  id : String
  submission_id : String
  persona_order : Nat
  job_title : String
  primary_segment : Option String
  seniority_level : Option String
  pain_before_buying : Option String
  aha_moment : Option String
  objections : Option String
  decision_criteria : Option String
  created_at : String
deriving Repr, DecidableEq

/-- The persistent database state: the four tables touched by the API. -/
structure Store where
  clients : List ClientRow := []
  submissions : List SubmissionRow := []
  segments : List SegmentRow := []
  personas : List PersonaRow := []
deriving Repr, DecidableEq

/-- An `HTTPException`: status code and detail message. -/
structure HTTPError where
  status : Nat
  detail : String
deriving Repr, DecidableEq

/-- The `SubmissionResponse` model returned on success. -/
structure SubmissionResponse where
  success : Bool
  submission_id : Option String := none
  message : Option String := none
deriving Repr, DecidableEq

/-- Failure inside the submit transaction: either an `HTTPException`
raised by the handler itself (re-raised as-is), or a database error
raised by `session.execute`/`session.commit` (carrying `str(e)`). -/
inductive TxErr where
  | http (e : HTTPError)
  | db (msg : String)
deriving Repr, DecidableEq

/-- A rendering of `json.dumps` on a flat string-valued JSON object. -/
def jsonDumpsObj (d : List (String × String)) : String :=
  "\x7b" ++ String.intercalate ", " (d.map fun kv => "\"" ++ kv.1 ++ "\": \"" ++ kv.2 ++ "\"") ++ "\x7d"

/-- A rendering of `json.dumps` on a JSON array of flat objects. -/
def jsonDumpsArr (l : List (List (String × String))) : String :=
  "[" ++ String.intercalate ", " (l.map jsonDumpsObj) ++ "]"

/-- `json.dumps(x) if x else None` on an optional dict: an absent or
empty dict is falsy, hence stored as null. -/
def pyDumpObj : Option (List (String × String)) → Option String
  | none => none
  | some d => if d.isEmpty then none else some (jsonDumpsObj d)

/-- `json.dumps(x) if x else None` on an optional list of dicts. -/
def pyDumpArr : Option (List (List (String × String))) → Option String
  | none => none
  | some l => if l.isEmpty then none else some (jsonDumpsArr l)

/-- The `self_serve_pct` normalization (lines 218-224): an integer becomes
its decimal text, a string passes through, absent stays null. -/
def normalizeSelfServe : Option IntOrStr → Option String
  | none => none
  | some (.int n) => some (toString n)
  | some (.str s) => some s

/-- Client resolution (lines 188-210): if the supplied `client_id` is falsy
and the company name truthy, SELECT a client by exact name (statement `e`);
reuse its id when found, otherwise generate a fresh id and INSERT a new
client row (statement `e+1`). Otherwise pass the supplied value through
untouched. Returns the resolved optional id, the buffered new client rows,
and the updated statement and identifier counters. -/
def resolveClientTx (oracle : Nat → Option String) (ids : Nat → String)
    (now : String) (p : Payload) (st : Store) (e i : Nat) :
    Except String (Option String × List ClientRow × Nat × Nat) :=
  if !pyTruthyStr p.client_id && pyTruthyStr p.company_name then
    match oracle e with
    | some m => .error m
    | none =>
      match st.clients.find? (fun c => c.name == p.company_name.getD "") with
      | some c => .ok (some c.id, [], e + 1, i)
      | none =>
        match oracle (e + 1) with
        | some m => .error m
        | none =>
          .ok (some (ids i), [⟨ids i, p.company_name.getD "", now⟩], e + 2, i + 1)
  else
    .ok (p.client_id, [], e, i)

/-- The parent `client_onboarding_submissions` row built by the INSERT of
lines 227-293, including all §4.2 normalizations: fixed version 1, fixed
`'submitted'` status, `x or []` array defaults, `json.dumps(x) if x else
None` nested objects, and the `self_serve_pct` normalization. -/
def mkParentRow (sid cid now : String) (p : Payload) : SubmissionRow :=
  { id := sid
    client_id := cid
    submission_version := 1
    company_name := p.company_name
    website := p.website
    contact_name := p.contact_name
    contact_email := p.contact_email
    employee_count := p.employee_count
    funding_stage := p.funding_stage
    hq_location := p.hq_location
    core_product := p.core_product
    target_customer := p.target_customer
    annual_revenue := p.annual_revenue
    acv := p.acv
    sales_cycle_length := p.sales_cycle_length
    self_serve_pct := normalizeSelfServe p.self_serve_pct
    signals := p.signals.getD []
    signal_details := pyDumpObj p.signal_details
    job_titles := p.job_titles.getD []
    outbound_tools := p.outbound_tools.getD []
    outbound_tools_other := p.outbound_tools_other
    crm := p.crm
    lead_sources := p.lead_sources.getD []
    customer_voice := p.customer_voice
    roi_results := p.roi_results
    case_studies_description := p.case_studies_description
    case_studies := pyDumpArr p.case_studies
    tone_style := p.tone_style
    messaging_notes := p.messaging_notes
    primary_gtm_objective := p.primary_gtm_objective
    primary_gtm_objective_other := p.primary_gtm_objective_other
    success_metrics := p.success_metrics.getD []
    success_definition := p.success_definition
    timeline_urgency := p.timeline_urgency
    monthly_budget := p.monthly_budget
    submission_status := "submitted"
    submitted_at := now
    created_at := now }

/-- The segment skip predicate (line 298): an entry is kept unless both
`seg.get('name')` and `seg.get('segment_name')` are falsy. -/
def keptSeg (seg : SegEntry) : Bool :=
  pyTruthyStr seg.name || pyTruthyStr seg.segment_name

/-- The persona skip predicate (line 328): kept iff `persona.get('job_title')`
is truthy. -/
def keptPersona (per : PersonaEntry) : Bool :=
  pyTruthyStr per.job_title

/-- The `client_segments` row built by the INSERT of lines 301-323:
`seg.get('name') or seg.get('segment_name', '')` for the name and
`seg.get('revenue_pct') or seg.get('revenue_percentage')` for the revenue
(Python `or`, so a falsy first alias falls through to the second). -/
def mkSegRow (rid sid : String) (idx : Nat) (seg : SegEntry) (now : String) : SegmentRow :=
  { id := rid
    submission_id := sid
    segment_order := idx
    segment_name := if pyTruthyStr seg.name then seg.name.getD "" else seg.segment_name.getD ""
    revenue_percentage := if pyTruthyInt seg.revenue_pct then seg.revenue_pct else seg.revenue_percentage
    unique_characteristics := seg.unique_characteristics
    pain_points := seg.pain_points
    buying_triggers := seg.buying_triggers
    created_at := now }

/-- The `client_personas` row built by the INSERT of lines 331-357. -/
def mkPersonaRow (rid sid : String) (idx : Nat) (per : PersonaEntry) (now : String) : PersonaRow :=
  { id := rid
    submission_id := sid
    persona_order := idx
    job_title := per.job_title.getD ""
    primary_segment := per.primary_segment
    seniority_level := per.seniority_level
    pain_before_buying := per.pain_before_buying
    aha_moment := per.aha_moment
    objections := per.objections
    decision_criteria := per.decision_criteria
    created_at := now }

/-- The segment insertion loop (lines 296-323): `enumerate` supplies `idx`
from the original array position, the skip check runs before the insert, and
each kept entry performs one INSERT (statement counter `e`) with a freshly
generated row id (identifier counter `i`). -/
def segLoop (oracle : Nat → Option String) (ids : Nat → String) (now sid : String) :
    List SegEntry → Nat → Nat → Nat → Except String (List SegmentRow × Nat × Nat)
  | [], _, e, i => .ok ([], e, i)
  | seg :: rest, idx, e, i =>
    if keptSeg seg then
      match oracle e with
      | some m => .error m
      | none =>
        match segLoop oracle ids now sid rest (idx + 1) (e + 1) (i + 1) with
        | .error m => .error m
        | .ok (rows, e', i') => .ok (mkSegRow (ids i) sid idx seg now :: rows, e', i')
    else
      segLoop oracle ids now sid rest (idx + 1) e i

/-- The persona insertion loop (lines 326-357), analogous to `segLoop`. -/
def personaLoop (oracle : Nat → Option String) (ids : Nat → String) (now sid : String) :
    List PersonaEntry → Nat → Nat → Nat → Except String (List PersonaRow × Nat × Nat)
  | [], _, e, i => .ok ([], e, i)
  | per :: rest, idx, e, i =>
    if keptPersona per then
      match oracle e with
      | some m => .error m
      | none =>
        match personaLoop oracle ids now sid rest (idx + 1) (e + 1) (i + 1) with
        | .error m => .error m
        | .ok (rows, e', i') => .ok (mkPersonaRow (ids i) sid idx per now :: rows, e', i')
    else
      personaLoop oracle ids now sid rest (idx + 1) e i

/-- The body of the `try` block of `submit_onboarding` (lines 184-359):
generate the submission id, resolve the client, raise the 400
`HTTPException` when no identifier resolved, then buffer the parent row,
the segment rows and the persona rows, and commit. Only the final commit
(one more failable statement) publishes the buffered rows onto the store;
any database error propagates as `TxErr.db` with nothing published. -/
def submitTx (oracle : Nat → Option String) (ids : Nat → String)
    (now : String) (p : Payload) (st : Store) : Except TxErr (Store × String) :=
  match resolveClientTx oracle ids now p st 0 1 with
  | .error m => .error (.db m)
  | .ok (cid?, newClients, e, i) =>
    if !pyTruthyStr cid? then
      .error (.http ⟨400, "Either client_id or company_name is required"⟩)
    else
      match oracle e with
      | some m => .error (.db m)
      | none =>
        match segLoop oracle ids now (ids 0) (p.segments.getD []) 0 (e + 1) i with
        | .error m => .error (.db m)
        | .ok (segRows, e2, i2) =>
          match personaLoop oracle ids now (ids 0) (p.personas.getD []) 0 e2 i2 with
          | .error m => .error (.db m)
          | .ok (perRows, e3, _) =>
            match oracle e3 with
            | some m => .error (.db m)
            | none =>
              .ok ({ clients := st.clients ++ newClients
                     submissions := st.submissions ++ [mkParentRow (ids 0) (cid?.getD "") now p]
                     segments := st.segments ++ segRows
                     personas := st.personas ++ perRows }, ids 0)

/-- The POST `/onboarding/submit` handler (lines 172-378): on success the
committed store and the `SubmissionResponse`; an `HTTPException` raised in
the body is re-raised unchanged; any other exception rolls back the unit of
work (the buffered rows are discarded, the committed store is untouched) and
surfaces as a 500 carrying `str(e)`. -/
def submit_onboarding (oracle : Nat → Option String) (ids : Nat → String)
    (now : String) (p : Payload) (st : Store) :
    Except HTTPError SubmissionResponse × Store :=
  match submitTx oracle ids now p st with
  | .ok (st', sid) =>
    (.ok { success := true, submission_id := some sid,
           message := some "Onboarding form submitted successfully" }, st')
  | .error (.http err) => (.error err, st)
  | .error (.db m) => (.error ⟨500, m⟩, st)

/-- Insertion into a list of segment rows kept ascending by `segment_order`. -/
def insSortedSeg (r : SegmentRow) : List SegmentRow → List SegmentRow
  | [] => [r]
  | x :: xs =>
    if r.segment_order ≤ x.segment_order then r :: x :: xs else x :: insSortedSeg r xs

/-- `ORDER BY segment_order` on the rows returned by the segments query. -/
def sortSegRows : List SegmentRow → List SegmentRow
  | [] => []
  | x :: xs => insSortedSeg x (sortSegRows xs)

/-- Insertion into a list of persona rows kept ascending by `persona_order`. -/
def insSortedPersona (r : PersonaRow) : List PersonaRow → List PersonaRow
  | [] => [r]
  | x :: xs =>
    if r.persona_order ≤ x.persona_order then r :: x :: xs else x :: insSortedPersona r xs

/-- `ORDER BY persona_order` on the rows returned by the personas query. -/
def sortPersonaRows : List PersonaRow → List PersonaRow
  | [] => []
  | x :: xs => insSortedPersona x (sortPersonaRows xs)

/-- The object returned by GET `/onboarding/{submission_id}`: the parent
row's columns with the ordered `segments` and `personas` arrays attached. -/
structure SubmissionView where
  parent : SubmissionRow
  segments : List SegmentRow
  personas : List PersonaRow
deriving Repr, DecidableEq

/-- The GET `/onboarding/{submission_id}` handler (lines 381-439): SELECT
the parent by id (statement 0, `fetchone` takes the first match), 404 when
absent, then SELECT the segments (statement 1) and personas (statement 2)
of that submission ordered by their order columns; a database error
surfaces as a 500 carrying `str(e)`. -/
def get_submission (oracle : Nat → Option String) (sid : String) (st : Store) :
    Except HTTPError SubmissionView :=
  match oracle 0 with
  | some m => .error ⟨500, m⟩
  | none =>
    match st.submissions.find? (fun r => r.id == sid) with
    | none => .error ⟨404, "Submission not found"⟩
    | some row =>
      match oracle 1 with
      | some m => .error ⟨500, m⟩
      | none =>
        match oracle 2 with
        | some m => .error ⟨500, m⟩
        | none =>
          .ok { parent := row
                segments := sortSegRows (st.segments.filter fun r => r.submission_id == sid)
                personas := sortPersonaRows (st.personas.filter fun r => r.submission_id == sid) }

/-- The failure oracle of a healthy database: no statement ever fails. -/
def noFail : Nat → Option String := fun _ => none

/-- Number of segment entries that survive the skip check. -/
def keptSegCount : List SegEntry → Nat
  | [] => 0
  | s :: r => if keptSeg s then keptSegCount r + 1 else keptSegCount r

/-- Number of persona entries that survive the skip check. -/
def keptPersonaCount : List PersonaEntry → Nat
  | [] => 0
  | s :: r => if keptPersona s then keptPersonaCount r + 1 else keptPersonaCount r

/-- The segment rows produced by a fault-free run of the segment loop:
each kept entry yields the row built from it at its original position,
consuming one fresh identifier; skipped entries yield nothing. -/
def expectedSegRows (ids : Nat → String) (now sid : String) :
    List SegEntry → Nat → Nat → List SegmentRow
  | [], _, _ => []
  | seg :: rest, idx, i =>
    if keptSeg seg then
      mkSegRow (ids i) sid idx seg now :: expectedSegRows ids now sid rest (idx + 1) (i + 1)
    else
      expectedSegRows ids now sid rest (idx + 1) i

/-- The persona rows produced by a fault-free run of the persona loop. -/
def expectedPersonaRows (ids : Nat → String) (now sid : String) :
    List PersonaEntry → Nat → Nat → List PersonaRow
  | [], _, _ => []
  | per :: rest, idx, i =>
    if keptPersona per then
      mkPersonaRow (ids i) sid idx per now :: expectedPersonaRows ids now sid rest (idx + 1) (i + 1)
    else
      expectedPersonaRows ids now sid rest (idx + 1) i

/-- Client resolution as a plain function of payload and store: the
resolved optional id, the new client rows, and the next free identifier
index (identifier 0 is the submission id, so resolution starts at 1). -/
def resolveSpec (ids : Nat → String) (now : String) (p : Payload) (st : Store) :
    Option String × List ClientRow × Nat :=
  if !pyTruthyStr p.client_id && pyTruthyStr p.company_name then
    match st.clients.find? (fun c => c.name == p.company_name.getD "") with
    | some c => (some c.id, [], 1)
    | none => (some (ids 1), [⟨ids 1, p.company_name.getD "", now⟩], 2)
  else
    (p.client_id, [], 1)

/-- The store committed by a fault-free successful submission. -/
def finalStore (ids : Nat → String) (now : String) (p : Payload) (st : Store) : Store :=
  { clients := st.clients ++ (resolveSpec ids now p st).2.1
    submissions := st.submissions ++
      [mkParentRow (ids 0) ((resolveSpec ids now p st).1.getD "") now p]
    segments := st.segments ++
      expectedSegRows ids now (ids 0) (p.segments.getD []) 0 (resolveSpec ids now p st).2.2
    personas := st.personas ++
      expectedPersonaRows ids now (ids 0) (p.personas.getD []) 0
        ((resolveSpec ids now p st).2.2 + keptSegCount (p.segments.getD [])) }

/-- A concrete identifier supply for witnesses. -/
def ids0 : Nat → String := fun n => "id-" ++ toString n

/-- The empty store, used as the initial state of witnesses. -/
def st0 : Store := {}

/-- When the supplied `client_id` is truthy or the company name is falsy,
the resolver executes no statement and passes the supplied value through. -/
lemma resolveClientTx_passthrough (oracle : Nat → Option String) (ids : Nat → String)
    (now : String) (p : Payload) (st : Store) (e i : Nat)
    (h : (!pyTruthyStr p.client_id && pyTruthyStr p.company_name) = false) :
    resolveClientTx oracle ids now p st e i = .ok (p.client_id, [], e, i) := by
  simp [resolveClientTx, h]

/-- With both identifying fields falsy no statement runs and the handler
raises the fixed 400 error, leaving the store untouched. -/
lemma submit_both_falsy_400 (oracle : Nat → Option String) (ids : Nat → String)
    (now : String) (p : Payload) (st : Store)
    (h1 : pyTruthyStr p.client_id = false) (h2 : pyTruthyStr p.company_name = false) :
    submit_onboarding oracle ids now p st =
      (.error ⟨400, "Either client_id or company_name is required"⟩, st) := by
  unfold submit_onboarding submitTx
  rw [resolveClientTx_passthrough oracle ids now p st 0 1 (by rw [h1, h2]; rfl)]
  simp [h1]

/-- C1: for every submission payload in which both the client identifier
and the company name are absent or empty, POST `/onboarding/submit` fails
with the 400 missing-identifying-field error and its fixed message, and the
store is unchanged — no row is written to clients, submissions, segments or
personas (this holds for every failure oracle because the failing path
executes no database statement). -/
theorem submit_missing_identifiers_400 (oracle : Nat → Option String)
    (ids : Nat → String) (now : String) (p : Payload) (st : Store)
    (h1 : pyTruthyStr p.client_id = false) (h2 : pyTruthyStr p.company_name = false) :
    submit_onboarding oracle ids now p st =
      (.error ⟨400, "Either client_id or company_name is required"⟩, st) :=
  submit_both_falsy_400 oracle ids now p st h1 h2

theorem submit_missing_identifiers_400_w :
    submit_onboarding noFail ids0 "t0" {} st0 =
      (.error ⟨400, "Either client_id or company_name is required"⟩, st0) :=
  submit_missing_identifiers_400 noFail ids0 "t0" {} st0 rfl rfl

/-- C2: whenever a storage failure occurs at any point of the write path
(client lookup or insert, parent insert, child inserts, or commit), the
operation surfaces a 500 error carrying the raw underlying error text and
the unit of work is rolled back: the committed store is exactly the
pre-request store, so no partial subset of the submission's rows persists. -/
theorem submit_storage_failure_500_rollback (oracle : Nat → Option String)
    (ids : Nat → String) (now : String) (p : Payload) (st : Store) (m : String)
    (h : submitTx oracle ids now p st = .error (.db m)) :
    submit_onboarding oracle ids now p st = (.error ⟨500, m⟩, st) := by
  unfold submit_onboarding
  rw [h]

/-- An oracle whose every statement fails, for the C2 witness. -/
def oracleFail0 : Nat → Option String := fun _ => some "connection refused"

/-- A payload with an explicit client id, for witnesses. -/
def pW0 : Payload := { client_id := some "client-7" }

theorem submit_storage_failure_500_rollback_w :
    submit_onboarding oracleFail0 ids0 "t0" pW0 st0 =
      (.error ⟨500, "connection refused"⟩, st0) :=
  submit_storage_failure_500_rollback oracleFail0 ids0 "t0" pW0 st0 "connection refused" rfl

/-- When the supplied `client_id` is falsy and the company name truthy,
the resolver runs the name lookup and, on a miss, the client insert. -/
lemma resolveClientTx_lookup (oracle : Nat → Option String) (ids : Nat → String)
    (now : String) (p : Payload) (st : Store) (e i : Nat)
    (h : (!pyTruthyStr p.client_id && pyTruthyStr p.company_name) = true) :
    resolveClientTx oracle ids now p st e i =
      match oracle e with
      | some m => .error m
      | none =>
        match st.clients.find? (fun c => c.name == p.company_name.getD "") with
        | some c => .ok (some c.id, [], e + 1, i)
        | none =>
          match oracle (e + 1) with
          | some m => .error m
          | none =>
            .ok (some (ids i), [⟨ids i, p.company_name.getD "", now⟩], e + 2, i + 1) := by
  simp [resolveClientTx, h]

/-- C10: a `client_id` supplied as the empty string is treated exactly as
an absent one: the whole operation behaves identically on the two payloads
(so the empty string is never stored verbatim as the parent row's client
reference, resolution falling through to the company-name path), and when
no company name is supplied either, the request fails with the 400
missing-identifying-field error and an unchanged store. -/
theorem empty_client_id_treated_as_absent (oracle : Nat → Option String)
    (ids : Nat → String) (now : String) (p : Payload) (st : Store) :
    submit_onboarding oracle ids now { p with client_id := some "" } st =
      submit_onboarding oracle ids now { p with client_id := none } st ∧
    (pyTruthyStr p.company_name = false →
      submit_onboarding oracle ids now { p with client_id := some "" } st =
        (.error ⟨400, "Either client_id or company_name is required"⟩, st)) := by
  constructor
  · by_cases hc : pyTruthyStr p.company_name = true
    · unfold submit_onboarding submitTx
      rw [resolveClientTx_lookup oracle ids now { p with client_id := some "" } st 0 1
            (by rw [show ({ p with client_id := some "" } : Payload).company_name = p.company_name from rfl, hc]; rfl),
          resolveClientTx_lookup oracle ids now { p with client_id := none } st 0 1
            (by rw [show ({ p with client_id := none } : Payload).company_name = p.company_name from rfl, hc]; rfl)]
      simp [mkParentRow]
    · rw [submit_both_falsy_400 oracle ids now { p with client_id := some "" } st rfl
            (by simpa using hc),
          submit_both_falsy_400 oracle ids now { p with client_id := none } st rfl
            (by simpa using hc)]
  · intro h
    exact submit_both_falsy_400 oracle ids now { p with client_id := some "" } st rfl h

theorem empty_client_id_treated_as_absent_w :
    (submit_onboarding noFail ids0 "t0" { ({} : Payload) with client_id := some "" } st0 =
       submit_onboarding noFail ids0 "t0" { ({} : Payload) with client_id := none } st0) ∧
    submit_onboarding noFail ids0 "t0" { ({} : Payload) with client_id := some "" } st0 =
      (.error ⟨400, "Either client_id or company_name is required"⟩, st0) :=
  ⟨(empty_client_id_treated_as_absent noFail ids0 "t0" {} st0).1,
   (empty_client_id_treated_as_absent noFail ids0 "t0" {} st0).2 rfl⟩

/-- Fault-free client resolution computes `resolveSpec` (the statement
counter it returns depends on the branch and is existentially bound). -/
lemma resolveClientTx_noFail (ids : Nat → String) (now : String) (p : Payload) (st : Store) :
    ∃ e, resolveClientTx noFail ids now p st 0 1 =
      .ok ((resolveSpec ids now p st).1, (resolveSpec ids now p st).2.1, e,
           (resolveSpec ids now p st).2.2) := by
  by_cases h : (!pyTruthyStr p.client_id && pyTruthyStr p.company_name) = true
  · cases hf : st.clients.find? (fun c => c.name == p.company_name.getD "") with
    | some c =>
      exact ⟨1, by rw [resolveClientTx_lookup noFail ids now p st 0 1 h]
                   simp [noFail, resolveSpec, h, hf]⟩
    | none =>
      exact ⟨2, by rw [resolveClientTx_lookup noFail ids now p st 0 1 h]
                   simp [noFail, resolveSpec, h, hf]⟩
  · have h' : (!pyTruthyStr p.client_id && pyTruthyStr p.company_name) = false := by
      simpa using h
    exact ⟨0, by rw [resolveClientTx_passthrough noFail ids now p st 0 1 h']
                 simp [resolveSpec, h']⟩

/-- A fault-free segment loop succeeds and produces exactly the expected
rows, advancing both counters by the number of kept entries. -/
lemma segLoop_noFail (ids : Nat → String) (now sid : String) :
    ∀ (entries : List SegEntry) (idx e i : Nat),
      segLoop noFail ids now sid entries idx e i =
        .ok (expectedSegRows ids now sid entries idx i,
             e + keptSegCount entries, i + keptSegCount entries)
  | [], idx, e, i => by simp [segLoop, expectedSegRows, keptSegCount]
  | seg :: rest, idx, e, i => by
    have h1 : ∀ a c : Nat, a + 1 + c = a + (c + 1) := by omega
    by_cases hk : keptSeg seg = true
    · simp [segLoop, expectedSegRows, keptSegCount, hk, noFail,
            segLoop_noFail ids now sid rest (idx + 1) (e + 1) (i + 1), h1]
    · simp [segLoop, expectedSegRows, keptSegCount, hk,
            segLoop_noFail ids now sid rest (idx + 1) e i]

/-- A fault-free persona loop succeeds and produces exactly the expected
rows, advancing both counters by the number of kept entries. -/
lemma personaLoop_noFail (ids : Nat → String) (now sid : String) :
    ∀ (entries : List PersonaEntry) (idx e i : Nat),
      personaLoop noFail ids now sid entries idx e i =
        .ok (expectedPersonaRows ids now sid entries idx i,
             e + keptPersonaCount entries, i + keptPersonaCount entries)
  | [], idx, e, i => by simp [personaLoop, expectedPersonaRows, keptPersonaCount]
  | per :: rest, idx, e, i => by
    have h1 : ∀ a c : Nat, a + 1 + c = a + (c + 1) := by omega
    by_cases hk : keptPersona per = true
    · simp [personaLoop, expectedPersonaRows, keptPersonaCount, hk, noFail,
            personaLoop_noFail ids now sid rest (idx + 1) (e + 1) (i + 1), h1]
    · simp [personaLoop, expectedPersonaRows, keptPersonaCount, hk,
            personaLoop_noFail ids now sid rest (idx + 1) e i]

/-- A fault-free submission whose resolved client id is truthy succeeds,
returns the generated submission id, and commits exactly `finalStore`. -/
lemma submit_noFail_ok (ids : Nat → String) (now : String) (p : Payload) (st : Store)
    (h : pyTruthyStr (resolveSpec ids now p st).1 = true) :
    submit_onboarding noFail ids now p st =
      (.ok { success := true, submission_id := some (ids 0),
             message := some "Onboarding form submitted successfully" },
       finalStore ids now p st) := by
  obtain ⟨e, hres⟩ := resolveClientTx_noFail ids now p st
  unfold submit_onboarding submitTx
  rw [hres]
  simp [h, noFail, segLoop_noFail, personaLoop_noFail, finalStore]

/-- A fault-free submission whose resolved client id is falsy fails with
the fixed 400 error and an unchanged store. -/
lemma submit_noFail_400 (ids : Nat → String) (now : String) (p : Payload) (st : Store)
    (h : pyTruthyStr (resolveSpec ids now p st).1 = false) :
    submit_onboarding noFail ids now p st =
      (.error ⟨400, "Either client_id or company_name is required"⟩, st) := by
  obtain ⟨e, hres⟩ := resolveClientTx_noFail ids now p st
  unfold submit_onboarding submitTx
  rw [hres]
  simp [h]

/-- Inversion: a successful fault-free submission determines the response
and the committed store. -/
lemma submit_noFail_ok_inv (ids : Nat → String) (now : String) (p : Payload) (st : Store)
    (resp : SubmissionResponse) (st' : Store)
    (h : submit_onboarding noFail ids now p st = (.ok resp, st')) :
    pyTruthyStr (resolveSpec ids now p st).1 = true ∧
    resp = { success := true, submission_id := some (ids 0),
             message := some "Onboarding form submitted successfully" } ∧
    st' = finalStore ids now p st := by
  by_cases ht : pyTruthyStr (resolveSpec ids now p st).1 = true
  · rw [submit_noFail_ok ids now p st ht] at h
    have hfst := congrArg Prod.fst h
    have hsnd := congrArg Prod.snd h
    simp at hfst hsnd
    exact ⟨ht, hfst.symm, hsnd.symm⟩
  · rw [submit_noFail_400 ids now p st (by simpa using ht)] at h
    simp at h

/-- C3: when `client_id` is supplied non-empty, client resolution executes
no database statement at all (no clients lookup, no client insert: the
statement counter comes back unchanged and no client row is buffered) and
passes the value through verbatim; on success the stored parent row carries
exactly the supplied value as its client reference and the clients table is
unchanged. -/
theorem submit_client_id_verbatim (ids : Nat → String) (now : String)
    (p : Payload) (st : Store) (s : String)
    (hs : p.client_id = some s) (hne : s ≠ "") :
    (∀ oracle e i, resolveClientTx oracle ids now p st e i = .ok (some s, [], e, i)) ∧
    (mkParentRow (ids 0) s now p).client_id = s ∧
    ∀ resp st', submit_onboarding noFail ids now p st = (.ok resp, st') →
      st'.clients = st.clients ∧
      ∃ segRows perRows,
        st' = { clients := st.clients
                submissions := st.submissions ++ [mkParentRow (ids 0) s now p]
                segments := st.segments ++ segRows
                personas := st.personas ++ perRows } := by
  have htr : pyTruthyStr p.client_id = true := by rw [hs]; simp [pyTruthyStr, hne]
  have hcond : (!pyTruthyStr p.client_id && pyTruthyStr p.company_name) = false := by
    rw [htr]; rfl
  have hspec : resolveSpec ids now p st = (some s, [], 1) := by
    unfold resolveSpec
    rw [hcond]
    simp [hs]
  refine ⟨?_, rfl, ?_⟩
  · intro oracle e i
    rw [resolveClientTx_passthrough oracle ids now p st e i hcond, hs]
  · intro resp st' h
    obtain ⟨-, -, hst⟩ := submit_noFail_ok_inv ids now p st resp st' h
    constructor
    · rw [hst]; simp [finalStore, hspec]
    · refine ⟨expectedSegRows ids now (ids 0) (p.segments.getD []) 0 1,
              expectedPersonaRows ids now (ids 0) (p.personas.getD []) 0
                (1 + keptSegCount (p.segments.getD [])), ?_⟩
      rw [hst]
      simp [finalStore, hspec]

/-- The C3 witness run committed store. -/
def stC3 : Store := (submit_onboarding noFail ids0 "t0" pW0 st0).2

/-- The response of a successful witness run. -/
def respOk : SubmissionResponse :=
  { success := true, submission_id := some (ids0 0),
    message := some "Onboarding form submitted successfully" }

theorem submit_client_id_verbatim_w :
    resolveClientTx noFail ids0 "t0" pW0 st0 0 1 = .ok (some "client-7", [], 0, 1) ∧
    (mkParentRow (ids0 0) "client-7" "t0" pW0).client_id = "client-7" ∧
    stC3.clients = st0.clients ∧
    ∃ segRows perRows,
      stC3 = { clients := st0.clients
               submissions := st0.submissions ++ [mkParentRow (ids0 0) "client-7" "t0" pW0]
               segments := st0.segments ++ segRows
               personas := st0.personas ++ perRows } := by
  have h := submit_client_id_verbatim ids0 "t0" pW0 st0 "client-7" rfl (by decide)
  have h2 := h.2.2 respOk stC3 rfl
  exact ⟨h.1 noFail 0 1, h.2.1, h2.1, h2.2⟩

/-- C4: when `client_id` is omitted and a company name is supplied, the
resolver queries for a client with exactly that name (exact string
comparison). If one exists its identifier is reused as the parent row's
client reference and no client row is inserted (clients table unchanged);
if none exists, exactly one new client row with a freshly generated
identifier and that name is appended, and that identifier becomes the
parent row's client reference. -/
theorem submit_company_name_resolution (ids : Nat → String) (now : String)
    (p : Payload) (st : Store) (nm : String)
    (hnone : p.client_id = none) (hnm : p.company_name = some nm) (hne : nm ≠ "") :
    (∀ c, st.clients.find? (fun cl => cl.name == nm) = some c →
       resolveClientTx noFail ids now p st 0 1 = .ok (some c.id, [], 1, 1) ∧
       (mkParentRow (ids 0) c.id now p).client_id = c.id ∧
       ∀ resp st', submit_onboarding noFail ids now p st = (.ok resp, st') →
         st'.clients = st.clients ∧
         ∃ segRows perRows,
           st' = { clients := st.clients
                   submissions := st.submissions ++ [mkParentRow (ids 0) c.id now p]
                   segments := st.segments ++ segRows
                   personas := st.personas ++ perRows }) ∧
    (st.clients.find? (fun cl => cl.name == nm) = none →
       resolveClientTx noFail ids now p st 0 1 =
         .ok (some (ids 1), [⟨ids 1, nm, now⟩], 2, 2) ∧
       (mkParentRow (ids 0) (ids 1) now p).client_id = ids 1 ∧
       ∀ resp st', submit_onboarding noFail ids now p st = (.ok resp, st') →
         st'.clients = st.clients ++ [⟨ids 1, nm, now⟩] ∧
         ∃ segRows perRows,
           st' = { clients := st.clients ++ [⟨ids 1, nm, now⟩]
                   submissions := st.submissions ++ [mkParentRow (ids 0) (ids 1) now p]
                   segments := st.segments ++ segRows
                   personas := st.personas ++ perRows }) := by
  have hcond : (!pyTruthyStr p.client_id && pyTruthyStr p.company_name) = true := by
    rw [hnone, hnm]; simp [pyTruthyStr, hne]
  constructor
  · intro c hf
    have hspec : resolveSpec ids now p st = (some c.id, [], 1) := by
      unfold resolveSpec
      rw [hcond]
      simp [hnm, hf]
    refine ⟨?_, rfl, ?_⟩
    · rw [resolveClientTx_lookup noFail ids now p st 0 1 hcond]
      simp [noFail, hnm, hf]
    · intro resp st' h
      obtain ⟨-, -, hst⟩ := submit_noFail_ok_inv ids now p st resp st' h
      constructor
      · rw [hst]; simp [finalStore, hspec]
      · refine ⟨expectedSegRows ids now (ids 0) (p.segments.getD []) 0 1,
                expectedPersonaRows ids now (ids 0) (p.personas.getD []) 0
                  (1 + keptSegCount (p.segments.getD [])), ?_⟩
        rw [hst]
        simp [finalStore, hspec]
  · intro hf
    have hspec : resolveSpec ids now p st = (some (ids 1), [⟨ids 1, nm, now⟩], 2) := by
      unfold resolveSpec
      rw [hcond]
      simp [hnm, hf]
    refine ⟨?_, rfl, ?_⟩
    · rw [resolveClientTx_lookup noFail ids now p st 0 1 hcond]
      simp [noFail, hnm, hf]
    · intro resp st' h
      obtain ⟨-, -, hst⟩ := submit_noFail_ok_inv ids now p st resp st' h
      constructor
      · rw [hst]; simp [finalStore, hspec]
      · refine ⟨expectedSegRows ids now (ids 0) (p.segments.getD []) 0 2,
                expectedPersonaRows ids now (ids 0) (p.personas.getD []) 0
                  (2 + keptSegCount (p.segments.getD [])), ?_⟩
        rw [hst]
        simp [finalStore, hspec]

/-- A payload supplying only a company name, for witnesses. -/
def pW4 : Payload := { company_name := some "Acme" }

/-- A store already holding a client named `Acme`, for the C4 witness. -/
def stAcme : Store := { clients := [⟨"cl-9", "Acme", "t-1"⟩] }

/-- Committed store of the C4 witness run against `stAcme` (client found). -/
def stC4f : Store := (submit_onboarding noFail ids0 "t0" pW4 stAcme).2

/-- Committed store of the C4 witness run against the empty store
(client created). -/
def stC4m : Store := (submit_onboarding noFail ids0 "t0" pW4 st0).2

theorem submit_company_name_resolution_w :
    resolveClientTx noFail ids0 "t0" pW4 stAcme 0 1 = .ok (some "cl-9", [], 1, 1) ∧
    stC4f.clients = stAcme.clients ∧
    resolveClientTx noFail ids0 "t0" pW4 st0 0 1 =
      .ok (some (ids0 1), [⟨ids0 1, "Acme", "t0"⟩], 2, 2) ∧
    stC4m.clients = st0.clients ++ [⟨ids0 1, "Acme", "t0"⟩] := by
  have hf := (submit_company_name_resolution ids0 "t0" pW4 stAcme "Acme" rfl rfl
      (by decide)).1 ⟨"cl-9", "Acme", "t-1"⟩ rfl
  have hm := (submit_company_name_resolution ids0 "t0" pW4 st0 "Acme" rfl rfl
      (by decide)).2 rfl
  exact ⟨hf.1, (hf.2.2 respOk stC4f rfl).1, hm.1, (hm.2.2 respOk stC4m rfl).1⟩

/-- C8: the self-serve percentage is normalized to a uniform text
representation before storage: an integer input is stored as its decimal
text, a string input passes through unchanged, an absent input is stored
as null; and the parent row committed by any successful fault-free
submission carries exactly this normalization of the payload field. -/
theorem self_serve_pct_normalization (ids : Nat → String) (now : String)
    (p : Payload) (st : Store) :
    (∀ n : Int, normalizeSelfServe (some (.int n)) = some (toString n)) ∧
    (∀ s : String, normalizeSelfServe (some (.str s)) = some s) ∧
    normalizeSelfServe none = none ∧
    ((mkParentRow (ids 0) ((resolveSpec ids now p st).1.getD "") now p).self_serve_pct =
      normalizeSelfServe p.self_serve_pct) ∧
    ∀ resp st', submit_onboarding noFail ids now p st = (.ok resp, st') →
      ∃ newClients segRows perRows,
        st' = { clients := st.clients ++ newClients
                submissions := st.submissions ++
                  [mkParentRow (ids 0) ((resolveSpec ids now p st).1.getD "") now p]
                segments := st.segments ++ segRows
                personas := st.personas ++ perRows } := by
  refine ⟨fun n => rfl, fun s => rfl, rfl, rfl, ?_⟩
  intro resp st' h
  obtain ⟨-, -, hst⟩ := submit_noFail_ok_inv ids now p st resp st' h
  exact ⟨_, _, _, by rw [hst]; rfl⟩

/-- A payload with an integer self-serve percentage, for the C8 witness. -/
def pW8 : Payload := { client_id := some "c8", self_serve_pct := some (.int 40) }

/-- Committed store of the C8 witness run. -/
def stC8 : Store := (submit_onboarding noFail ids0 "t0" pW8 st0).2

theorem self_serve_pct_normalization_w :
    normalizeSelfServe (some (.int 40)) = some "40" ∧
    normalizeSelfServe (some (.str "25")) = some "25" ∧
    normalizeSelfServe none = none ∧
    (mkParentRow (ids0 0) ((resolveSpec ids0 "t0" pW8 st0).1.getD "") "t0" pW8).self_serve_pct =
      normalizeSelfServe pW8.self_serve_pct ∧
    ∃ newClients segRows perRows,
      stC8 = { clients := st0.clients ++ newClients
               submissions := st0.submissions ++
                 [mkParentRow (ids0 0) ((resolveSpec ids0 "t0" pW8 st0).1.getD "") "t0" pW8]
               segments := st0.segments ++ segRows
               personas := st0.personas ++ perRows } := by
  have h := self_serve_pct_normalization ids0 "t0" pW8 st0
  exact ⟨h.1 40, h.2.1 "25", h.2.2.1, h.2.2.2.1, h.2.2.2.2 respOk stC8 rfl⟩

/-- Every expected segment row carries the submission id it was built for. -/
lemma expectedSegRows_sid (ids : Nat → String) (now sid : String) :
    ∀ (entries : List SegEntry) (idx i : Nat) (r : SegmentRow),
      r ∈ expectedSegRows ids now sid entries idx i → r.submission_id = sid
  | [], _, _, r => by simp [expectedSegRows]
  | seg :: rest, idx, i, r => by
    by_cases hk : keptSeg seg = true
    · simp only [expectedSegRows]
      rw [if_pos hk]
      intro hr
      rcases List.mem_cons.mp hr with rfl | hr'
      · rfl
      · exact expectedSegRows_sid ids now sid rest (idx + 1) (i + 1) r hr'
    · simp only [expectedSegRows]
      rw [if_neg hk]
      exact expectedSegRows_sid ids now sid rest (idx + 1) i r

/-- Expected segment rows have order indices at least the starting index. -/
lemma expectedSegRows_order_ge (ids : Nat → String) (now sid : String) :
    ∀ (entries : List SegEntry) (idx i : Nat) (r : SegmentRow),
      r ∈ expectedSegRows ids now sid entries idx i → idx ≤ r.segment_order
  | [], _, _, r => by simp [expectedSegRows]
  | seg :: rest, idx, i, r => by
    by_cases hk : keptSeg seg = true
    · simp only [expectedSegRows]
      rw [if_pos hk]
      intro hr
      rcases List.mem_cons.mp hr with rfl | hr'
      · exact Nat.le_refl _
      · exact Nat.le_of_succ_le
          (expectedSegRows_order_ge ids now sid rest (idx + 1) (i + 1) r hr')
    · simp only [expectedSegRows]
      rw [if_neg hk]
      intro hr
      exact Nat.le_of_succ_le (expectedSegRows_order_ge ids now sid rest (idx + 1) i r hr)

/-- Expected segment rows are in ascending `segment_order`. -/
lemma expectedSegRows_sorted (ids : Nat → String) (now sid : String) :
    ∀ (entries : List SegEntry) (idx i : Nat),
      (expectedSegRows ids now sid entries idx i).Pairwise
        (fun a b => a.segment_order ≤ b.segment_order)
  | [], _, _ => by simp [expectedSegRows]
  | seg :: rest, idx, i => by
    by_cases hk : keptSeg seg = true
    · simp only [expectedSegRows]
      rw [if_pos hk]
      refine List.Pairwise.cons ?_ (expectedSegRows_sorted ids now sid rest (idx + 1) (i + 1))
      intro b hb
      exact Nat.le_of_succ_le (expectedSegRows_order_ge ids now sid rest (idx + 1) (i + 1) b hb)
    · simp only [expectedSegRows]
      rw [if_neg hk]
      exact expectedSegRows_sorted ids now sid rest (idx + 1) i

/-- Every expected segment row arises from the kept entry at its stored
order index, with the truthiness-precedence alias selection. -/
lemma expectedSegRows_mem (ids : Nat → String) (now sid : String) :
    ∀ (entries : List SegEntry) (idx i : Nat) (r : SegmentRow),
      r ∈ expectedSegRows ids now sid entries idx i →
      ∃ j seg, entries.get? j = some seg ∧ keptSeg seg = true ∧
        r.segment_order = idx + j ∧
        r.segment_name =
          (if pyTruthyStr seg.name then seg.name.getD "" else seg.segment_name.getD "") ∧
        r.revenue_percentage =
          (if pyTruthyInt seg.revenue_pct then seg.revenue_pct else seg.revenue_percentage)
  | [], _, _, r => by simp [expectedSegRows]
  | seg :: rest, idx, i, r => by
    by_cases hk : keptSeg seg = true
    · simp only [expectedSegRows]
      rw [if_pos hk]
      intro hr
      rcases List.mem_cons.mp hr with rfl | hr'
      · exact ⟨0, seg, rfl, hk, rfl, rfl, rfl⟩
      · obtain ⟨j, sg, h1, h2, h3, h4, h5⟩ :=
          expectedSegRows_mem ids now sid rest (idx + 1) (i + 1) r hr'
        exact ⟨j + 1, sg, h1, h2, by omega, h4, h5⟩
    · simp only [expectedSegRows]
      rw [if_neg hk]
      intro hr
      obtain ⟨j, sg, h1, h2, h3, h4, h5⟩ :=
        expectedSegRows_mem ids now sid rest (idx + 1) i r hr
      exact ⟨j + 1, sg, h1, h2, by omega, h4, h5⟩

/-- An order index is hit by some expected segment row exactly when the
entry at that position survives the skip check. -/
lemma expectedSegRows_order_mem_iff (ids : Nat → String) (now sid : String) :
    ∀ (entries : List SegEntry) (idx i j : Nat) (seg : SegEntry),
      entries.get? j = some seg →
      ((∃ r, r ∈ expectedSegRows ids now sid entries idx i ∧ r.segment_order = idx + j) ↔
        keptSeg seg = true)
  | [], _, _, j, seg => by simp
  | s :: rest, idx, i, 0, seg => by
    intro hget
    obtain rfl : s = seg := by simpa using hget
    by_cases hk : keptSeg s = true
    · simp only [expectedSegRows]
      rw [if_pos hk]
      constructor
      · intro _; exact hk
      · intro _
        exact ⟨mkSegRow (ids i) sid idx s now, List.mem_cons_self _ _, rfl⟩
    · simp only [expectedSegRows]
      rw [if_neg hk]
      constructor
      · rintro ⟨r, hr, ho⟩
        have hge := expectedSegRows_order_ge ids now sid rest (idx + 1) i r hr
        exact absurd rfl (by omega : ¬ (idx : Nat) = idx)
      · intro h; exact absurd h hk
  | s :: rest, idx, i, j + 1, seg => by
    intro hget
    have hget' : rest.get? j = some seg := hget
    by_cases hk : keptSeg s = true
    · simp only [expectedSegRows]
      rw [if_pos hk,
          ← expectedSegRows_order_mem_iff ids now sid rest (idx + 1) (i + 1) j seg hget']
      constructor
      · rintro ⟨r, hr, ho⟩
        rcases List.mem_cons.mp hr with rfl | hr'
        · have h' : idx = idx + (j + 1) := ho
          omega
        · exact ⟨r, hr', by omega⟩
      · rintro ⟨r, hr, ho⟩
        exact ⟨r, List.mem_cons_of_mem _ hr, by omega⟩
    · simp only [expectedSegRows]
      rw [if_neg hk,
          ← expectedSegRows_order_mem_iff ids now sid rest (idx + 1) i j seg hget']
      constructor
      · rintro ⟨r, hr, ho⟩
        exact ⟨r, hr, by omega⟩
      · rintro ⟨r, hr, ho⟩
        exact ⟨r, hr, by omega⟩

/-- The order indices of the expected segment rows are exactly the
positions of the kept entries in the enumeration of the input array. -/
lemma expectedSegRows_orders (ids : Nat → String) (now sid : String) :
    ∀ (entries : List SegEntry) (idx i : Nat),
      (expectedSegRows ids now sid entries idx i).map (fun r => r.segment_order) =
        ((List.enumFrom idx entries).filter (fun q => keptSeg q.2)).map (fun q => q.1)
  | [], _, _ => rfl
  | seg :: rest, idx, i => by
    by_cases hk : keptSeg seg = true
    · simp only [expectedSegRows, List.enumFrom]
      rw [if_pos hk]
      simp [List.filter_cons, hk, mkSegRow,
            expectedSegRows_orders ids now sid rest (idx + 1) (i + 1)]
    · simp only [expectedSegRows, List.enumFrom]
      rw [if_neg hk]
      simp [List.filter_cons, hk,
            expectedSegRows_orders ids now sid rest (idx + 1) i]

/-- Every expected persona row carries the submission id it was built for. -/
lemma expectedPersonaRows_sid (ids : Nat → String) (now sid : String) :
    ∀ (entries : List PersonaEntry) (idx i : Nat) (r : PersonaRow),
      r ∈ expectedPersonaRows ids now sid entries idx i → r.submission_id = sid
  | [], _, _, r => by simp [expectedPersonaRows]
  | per :: rest, idx, i, r => by
    by_cases hk : keptPersona per = true
    · simp only [expectedPersonaRows]
      rw [if_pos hk]
      intro hr
      rcases List.mem_cons.mp hr with rfl | hr'
      · rfl
      · exact expectedPersonaRows_sid ids now sid rest (idx + 1) (i + 1) r hr'
    · simp only [expectedPersonaRows]
      rw [if_neg hk]
      exact expectedPersonaRows_sid ids now sid rest (idx + 1) i r

/-- Expected persona rows have order indices at least the starting index. -/
lemma expectedPersonaRows_order_ge (ids : Nat → String) (now sid : String) :
    ∀ (entries : List PersonaEntry) (idx i : Nat) (r : PersonaRow),
      r ∈ expectedPersonaRows ids now sid entries idx i → idx ≤ r.persona_order
  | [], _, _, r => by simp [expectedPersonaRows]
  | per :: rest, idx, i, r => by
    by_cases hk : keptPersona per = true
    · simp only [expectedPersonaRows]
      rw [if_pos hk]
      intro hr
      rcases List.mem_cons.mp hr with rfl | hr'
      · exact Nat.le_refl _
      · exact Nat.le_of_succ_le
          (expectedPersonaRows_order_ge ids now sid rest (idx + 1) (i + 1) r hr')
    · simp only [expectedPersonaRows]
      rw [if_neg hk]
      intro hr
      exact Nat.le_of_succ_le (expectedPersonaRows_order_ge ids now sid rest (idx + 1) i r hr)

/-- Expected persona rows are in ascending `persona_order`. -/
lemma expectedPersonaRows_sorted (ids : Nat → String) (now sid : String) :
    ∀ (entries : List PersonaEntry) (idx i : Nat),
      (expectedPersonaRows ids now sid entries idx i).Pairwise
        (fun a b => a.persona_order ≤ b.persona_order)
  | [], _, _ => by simp [expectedPersonaRows]
  | per :: rest, idx, i => by
    by_cases hk : keptPersona per = true
    · simp only [expectedPersonaRows]
      rw [if_pos hk]
      refine List.Pairwise.cons ?_ (expectedPersonaRows_sorted ids now sid rest (idx + 1) (i + 1))
      intro b hb
      exact Nat.le_of_succ_le (expectedPersonaRows_order_ge ids now sid rest (idx + 1) (i + 1) b hb)
    · simp only [expectedPersonaRows]
      rw [if_neg hk]
      exact expectedPersonaRows_sorted ids now sid rest (idx + 1) i

/-- Every expected persona row arises from the kept entry at its stored
order index. -/
lemma expectedPersonaRows_mem (ids : Nat → String) (now sid : String) :
    ∀ (entries : List PersonaEntry) (idx i : Nat) (r : PersonaRow),
      r ∈ expectedPersonaRows ids now sid entries idx i →
      ∃ j per, entries.get? j = some per ∧ keptPersona per = true ∧
        r.persona_order = idx + j ∧
        r.job_title = per.job_title.getD ""
  | [], _, _, r => by simp [expectedPersonaRows]
  | per :: rest, idx, i, r => by
    by_cases hk : keptPersona per = true
    · simp only [expectedPersonaRows]
      rw [if_pos hk]
      intro hr
      rcases List.mem_cons.mp hr with rfl | hr'
      · exact ⟨0, per, rfl, hk, rfl, rfl⟩
      · obtain ⟨j, pe, h1, h2, h3, h4⟩ :=
          expectedPersonaRows_mem ids now sid rest (idx + 1) (i + 1) r hr'
        exact ⟨j + 1, pe, h1, h2, by omega, h4⟩
    · simp only [expectedPersonaRows]
      rw [if_neg hk]
      intro hr
      obtain ⟨j, pe, h1, h2, h3, h4⟩ :=
        expectedPersonaRows_mem ids now sid rest (idx + 1) i r hr
      exact ⟨j + 1, pe, h1, h2, by omega, h4⟩

/-- An order index is hit by some expected persona row exactly when the
entry at that position survives the skip check. -/
lemma expectedPersonaRows_order_mem_iff (ids : Nat → String) (now sid : String) :
    ∀ (entries : List PersonaEntry) (idx i j : Nat) (per : PersonaEntry),
      entries.get? j = some per →
      ((∃ r, r ∈ expectedPersonaRows ids now sid entries idx i ∧ r.persona_order = idx + j) ↔
        keptPersona per = true)
  | [], _, _, j, per => by simp
  | s :: rest, idx, i, 0, per => by
    intro hget
    obtain rfl : s = per := by simpa using hget
    by_cases hk : keptPersona s = true
    · simp only [expectedPersonaRows]
      rw [if_pos hk]
      constructor
      · intro _; exact hk
      · intro _
        exact ⟨mkPersonaRow (ids i) sid idx s now, List.mem_cons_self _ _, rfl⟩
    · simp only [expectedPersonaRows]
      rw [if_neg hk]
      constructor
      · rintro ⟨r, hr, ho⟩
        have hge := expectedPersonaRows_order_ge ids now sid rest (idx + 1) i r hr
        exact absurd rfl (by omega : ¬ (idx : Nat) = idx)
      · intro h; exact absurd h hk
  | s :: rest, idx, i, j + 1, per => by
    intro hget
    have hget' : rest.get? j = some per := hget
    by_cases hk : keptPersona s = true
    · simp only [expectedPersonaRows]
      rw [if_pos hk,
          ← expectedPersonaRows_order_mem_iff ids now sid rest (idx + 1) (i + 1) j per hget']
      constructor
      · rintro ⟨r, hr, ho⟩
        rcases List.mem_cons.mp hr with rfl | hr'
        · have h' : idx = idx + (j + 1) := ho
          omega
        · exact ⟨r, hr', by omega⟩
      · rintro ⟨r, hr, ho⟩
        exact ⟨r, List.mem_cons_of_mem _ hr, by omega⟩
    · simp only [expectedPersonaRows]
      rw [if_neg hk,
          ← expectedPersonaRows_order_mem_iff ids now sid rest (idx + 1) i j per hget']
      constructor
      · rintro ⟨r, hr, ho⟩
        exact ⟨r, hr, by omega⟩
      · rintro ⟨r, hr, ho⟩
        exact ⟨r, hr, by omega⟩

/-- The order indices of the expected persona rows are exactly the
positions of the kept entries in the enumeration of the input array. -/
lemma expectedPersonaRows_orders (ids : Nat → String) (now sid : String) :
    ∀ (entries : List PersonaEntry) (idx i : Nat),
      (expectedPersonaRows ids now sid entries idx i).map (fun r => r.persona_order) =
        ((List.enumFrom idx entries).filter (fun q => keptPersona q.2)).map (fun q => q.1)
  | [], _, _ => rfl
  | per :: rest, idx, i => by
    by_cases hk : keptPersona per = true
    · simp only [expectedPersonaRows, List.enumFrom]
      rw [if_pos hk]
      simp [List.filter_cons, hk, mkPersonaRow,
            expectedPersonaRows_orders ids now sid rest (idx + 1) (i + 1)]
    · simp only [expectedPersonaRows, List.enumFrom]
      rw [if_neg hk]
      simp [List.filter_cons, hk,
            expectedPersonaRows_orders ids now sid rest (idx + 1) i]

/-- C5: in any successful fault-free submission, a segment entry is
persisted (some committed row carries its position as order index) if and
only if at least one of its two alternate name fields is non-empty, and a
persona entry is persisted if and only if its job title is non-empty;
entries failing the rule contribute no row. -/
theorem child_persisted_iff_discriminating_field (ids : Nat → String) (now : String)
    (p : Payload) (st : Store) (resp : SubmissionResponse) (st' : Store)
    (hrun : submit_onboarding noFail ids now p st = (.ok resp, st')) :
    ∃ segRows perRows,
      st'.segments = st.segments ++ segRows ∧
      st'.personas = st.personas ++ perRows ∧
      (∀ j seg, (p.segments.getD []).get? j = some seg →
        ((∃ r, r ∈ segRows ∧ r.segment_order = j) ↔
          (pyTruthyStr seg.name || pyTruthyStr seg.segment_name) = true)) ∧
      (∀ j per, (p.personas.getD []).get? j = some per →
        ((∃ r, r ∈ perRows ∧ r.persona_order = j) ↔
          pyTruthyStr per.job_title = true)) := by
  obtain ⟨-, -, hst⟩ := submit_noFail_ok_inv ids now p st resp st' hrun
  subst hst
  refine ⟨_, _, rfl, rfl, ?_, ?_⟩
  · intro j seg hget
    have h := expectedSegRows_order_mem_iff ids now (ids 0) (p.segments.getD [])
      0 (resolveSpec ids now p st).2.2 j seg hget
    simpa [keptSeg] using h
  · intro j per hget
    have h := expectedPersonaRows_order_mem_iff ids now (ids 0) (p.personas.getD [])
      0 ((resolveSpec ids now p st).2.2 + keptSegCount (p.segments.getD [])) j per hget
    simpa [keptPersona] using h

/-- The C5/C6 witness payload: a kept, a skipped and an alias-named
segment, and a skipped and a kept persona. -/
def pW5 : Payload :=
  { client_id := some "c5"
    segments := some [{ name := some "SMB" }, {}, { segment_name := some "Ent" }]
    personas := some [{}, { job_title := some "CTO" }] }

/-- Committed store of the C5/C6 witness run. -/
def stC5 : Store := (submit_onboarding noFail ids0 "t0" pW5 st0).2

theorem child_persisted_iff_discriminating_field_w :
    ∃ segRows perRows,
      stC5.segments = st0.segments ++ segRows ∧
      stC5.personas = st0.personas ++ perRows ∧
      (∀ j seg, (pW5.segments.getD []).get? j = some seg →
        ((∃ r, r ∈ segRows ∧ r.segment_order = j) ↔
          (pyTruthyStr seg.name || pyTruthyStr seg.segment_name) = true)) ∧
      (∀ j per, (pW5.personas.getD []).get? j = some per →
        ((∃ r, r ∈ perRows ∧ r.persona_order = j) ↔
          pyTruthyStr per.job_title = true)) :=
  child_persisted_iff_discriminating_field ids0 "t0" pW5 st0 respOk stC5 rfl

/-- C6: the stored order index of every persisted child row is the entry's
zero-based position in the original input array: the committed segment
(resp. persona) order indices are exactly the positions of the kept entries
in the enumeration of the input taken before filtering, so indices of
skipped entries are preserved and stored indices may be non-contiguous. -/
theorem child_order_preserves_input_position (ids : Nat → String) (now : String)
    (p : Payload) (st : Store) (resp : SubmissionResponse) (st' : Store)
    (hrun : submit_onboarding noFail ids now p st = (.ok resp, st')) :
    ∃ segRows perRows,
      st'.segments = st.segments ++ segRows ∧
      st'.personas = st.personas ++ perRows ∧
      segRows.map (fun r => r.segment_order) =
        ((List.enumFrom 0 (p.segments.getD [])).filter
          (fun q => keptSeg q.2)).map (fun q => q.1) ∧
      perRows.map (fun r => r.persona_order) =
        ((List.enumFrom 0 (p.personas.getD [])).filter
          (fun q => keptPersona q.2)).map (fun q => q.1) := by
  obtain ⟨-, -, hst⟩ := submit_noFail_ok_inv ids now p st resp st' hrun
  subst hst
  exact ⟨_, _, rfl, rfl,
    expectedSegRows_orders ids now (ids 0) (p.segments.getD []) 0 _,
    expectedPersonaRows_orders ids now (ids 0) (p.personas.getD []) 0 _⟩

theorem child_order_preserves_input_position_w :
    ∃ segRows perRows,
      stC5.segments = st0.segments ++ segRows ∧
      stC5.personas = st0.personas ++ perRows ∧
      segRows.map (fun r => r.segment_order) =
        ((List.enumFrom 0 (pW5.segments.getD [])).filter
          (fun q => keptSeg q.2)).map (fun q => q.1) ∧
      perRows.map (fun r => r.persona_order) =
        ((List.enumFrom 0 (pW5.personas.getD [])).filter
          (fun q => keptPersona q.2)).map (fun q => q.1) :=
  child_order_preserves_input_position ids0 "t0" pW5 st0 respOk stC5 rfl

/-- A segment entry whose primary revenue alias is present but falsy. -/
def segCexEntry : SegEntry :=
  { name := some "Enterprise", revenue_pct := some 0, revenue_percentage := some 40 }

/-- A payload carrying `segCexEntry`, for the C7 counterexample. -/
def pCex : Payload := { client_id := some "c-1", segments := some [segCexEntry] }

/-- C7 counterexample: in this persisted segment entry the primary revenue
alias `revenue_pct` is present (with value 0), yet the stored revenue
percentage is 40, taken from the fallback alias `revenue_percentage`: the
code applies Python-truthiness precedence, not presence precedence, so the
claim that the primary alias's value is used whenever that alias is present
fails. -/
theorem segment_alias_presence_precedence_cex :
    segCexEntry.revenue_pct = some 0 ∧
    (submit_onboarding noFail ids0 "t0" pCex st0).2.segments.map
        (fun r => r.revenue_percentage) = [some 40] ∧
    (submit_onboarding noFail ids0 "t0" pCex st0).2.segments.map
        (fun r => r.revenue_percentage) ≠ [segCexEntry.revenue_pct] := by
  refine ⟨rfl, by decide, by decide⟩

/-- C7 (amended): for every persisted segment row, each of the stored name
and revenue fields is taken from the primary alias (`name`, `revenue_pct`)
whenever that alias holds a truthy (non-null, non-empty, non-zero) value,
and from the fallback alias (`segment_name`, `revenue_percentage`)
otherwise — i.e. also when the primary alias is present but falsy. -/
theorem segment_alias_truthy_precedence (ids : Nat → String) (now : String)
    (p : Payload) (st : Store) (resp : SubmissionResponse) (st' : Store)
    (hrun : submit_onboarding noFail ids now p st = (.ok resp, st')) :
    ∃ segRows, st'.segments = st.segments ++ segRows ∧
      ∀ r, r ∈ segRows → ∃ j seg,
        (p.segments.getD []).get? j = some seg ∧
        r.segment_order = j ∧
        r.segment_name =
          (if pyTruthyStr seg.name then seg.name.getD "" else seg.segment_name.getD "") ∧
        r.revenue_percentage =
          (if pyTruthyInt seg.revenue_pct then seg.revenue_pct else seg.revenue_percentage) := by
  obtain ⟨-, -, hst⟩ := submit_noFail_ok_inv ids now p st resp st' hrun
  subst hst
  refine ⟨_, rfl, ?_⟩
  intro r hr
  obtain ⟨j, seg, h1, h2, h3, h4, h5⟩ :=
    expectedSegRows_mem ids now (ids 0) (p.segments.getD []) 0 _ r hr
  exact ⟨j, seg, h1, by simpa using h3, h4, h5⟩

/-- Committed store of the C7 witness run. -/
def stCex : Store := (submit_onboarding noFail ids0 "t0" pCex st0).2

theorem segment_alias_truthy_precedence_w :
    ∃ segRows, stCex.segments = st0.segments ++ segRows ∧
      ∀ r, r ∈ segRows → ∃ j seg,
        (pCex.segments.getD []).get? j = some seg ∧
        r.segment_order = j ∧
        r.segment_name =
          (if pyTruthyStr seg.name then seg.name.getD "" else seg.segment_name.getD "") ∧
        r.revenue_percentage =
          (if pyTruthyInt seg.revenue_pct then seg.revenue_pct else seg.revenue_percentage) :=
  segment_alias_truthy_precedence ids0 "t0" pCex st0 respOk stCex rfl

/-- `find?` skips a prefix on which the predicate is everywhere false. -/
lemma find?_append_skip {α : Type} (q : α → Bool) :
    ∀ (l₁ l₂ : List α), (∀ x ∈ l₁, q x = false) → (l₁ ++ l₂).find? q = l₂.find? q
  | [], _, _ => rfl
  | a :: l₁, l₂, h => by
    rw [List.cons_append,
        List.find?_cons_of_neg _ (by simp [h a (List.mem_cons_self a l₁)]),
        find?_append_skip q l₁ l₂ fun x hx => h x (List.mem_cons_of_mem a hx)]

/-- Sorting a list of segment rows already ascending in `segment_order`
leaves it unchanged. -/
lemma sortSegRows_of_sorted :
    ∀ l : List SegmentRow,
      l.Pairwise (fun a b => a.segment_order ≤ b.segment_order) → sortSegRows l = l
  | [], _ => rfl
  | x :: xs, h => by
    simp only [sortSegRows]
    rw [sortSegRows_of_sorted xs (List.Pairwise.of_cons h)]
    cases xs with
    | nil => rfl
    | cons y ys =>
      simp only [insSortedSeg]
      rw [if_pos ((List.pairwise_cons.mp h).1 y (List.mem_cons_self y ys))]

/-- Sorting a list of persona rows already ascending in `persona_order`
leaves it unchanged. -/
lemma sortPersonaRows_of_sorted :
    ∀ l : List PersonaRow,
      l.Pairwise (fun a b => a.persona_order ≤ b.persona_order) → sortPersonaRows l = l
  | [], _ => rfl
  | x :: xs, h => by
    simp only [sortPersonaRows]
    rw [sortPersonaRows_of_sorted xs (List.Pairwise.of_cons h)]
    cases xs with
    | nil => rfl
    | cons y ys =>
      simp only [insSortedPersona]
      rw [if_pos ((List.pairwise_cons.mp h).1 y (List.mem_cons_self y ys))]

/-- C9: round-trip. After any accepted fault-free submission whose
generated identifier is fresh for the pre-request store, reading the
returned submission id back yields the parent row exactly as built by the
§4.2 normalization (`mkParentRow`: fixed version 1, fixed submitted status,
arrays defaulted to empty, nested objects serialized only when non-empty,
percentage normalized, the resolved client reference), together with the
committed segment and persona rows in ascending order-index order, whose
order indices are exactly the positions of the non-skipped input entries. -/
theorem submit_get_round_trip (ids : Nat → String) (now : String)
    (p : Payload) (st : Store) (resp : SubmissionResponse) (st' : Store)
    (hrun : submit_onboarding noFail ids now p st = (.ok resp, st'))
    (hfresh1 : ∀ r ∈ st.submissions, r.id ≠ ids 0)
    (hfresh2 : ∀ r ∈ st.segments, r.submission_id ≠ ids 0)
    (hfresh3 : ∀ r ∈ st.personas, r.submission_id ≠ ids 0) :
    resp.submission_id = some (ids 0) ∧
    get_submission noFail (ids 0) st' =
      .ok { parent := mkParentRow (ids 0) ((resolveSpec ids now p st).1.getD "") now p
            segments := expectedSegRows ids now (ids 0) (p.segments.getD []) 0
              (resolveSpec ids now p st).2.2
            personas := expectedPersonaRows ids now (ids 0) (p.personas.getD []) 0
              ((resolveSpec ids now p st).2.2 + keptSegCount (p.segments.getD [])) } ∧
    (expectedSegRows ids now (ids 0) (p.segments.getD []) 0
        (resolveSpec ids now p st).2.2).map (fun r => r.segment_order) =
      ((List.enumFrom 0 (p.segments.getD [])).filter
        (fun q => keptSeg q.2)).map (fun q => q.1) ∧
    (expectedPersonaRows ids now (ids 0) (p.personas.getD []) 0
        ((resolveSpec ids now p st).2.2 + keptSegCount (p.segments.getD []))).map
        (fun r => r.persona_order) =
      ((List.enumFrom 0 (p.personas.getD [])).filter
        (fun q => keptPersona q.2)).map (fun q => q.1) := by
  obtain ⟨-, hresp, hst⟩ := submit_noFail_ok_inv ids now p st resp st' hrun
  subst hst
  refine ⟨by rw [hresp], ?_,
    expectedSegRows_orders ids now (ids 0) (p.segments.getD []) 0 _,
    expectedPersonaRows_orders ids now (ids 0) (p.personas.getD []) 0 _⟩
  have hfind : (finalStore ids now p st).submissions.find? (fun r => r.id == ids 0) =
      some (mkParentRow (ids 0) ((resolveSpec ids now p st).1.getD "") now p) := by
    show (st.submissions ++
        [mkParentRow (ids 0) ((resolveSpec ids now p st).1.getD "") now p]).find?
        (fun r => r.id == ids 0) = _
    rw [find?_append_skip _ st.submissions _
        (fun x hx => beq_eq_false_iff_ne.mpr (hfresh1 x hx))]
    exact List.find?_cons_of_pos _ (beq_self_eq_true (ids 0))
  have hseg : (finalStore ids now p st).segments.filter
      (fun r => r.submission_id == ids 0) =
      expectedSegRows ids now (ids 0) (p.segments.getD []) 0
        (resolveSpec ids now p st).2.2 := by
    show (st.segments ++ expectedSegRows ids now (ids 0) (p.segments.getD []) 0
        (resolveSpec ids now p st).2.2).filter (fun r => r.submission_id == ids 0) = _
    rw [List.filter_append,
        List.filter_eq_nil_iff.mpr (fun x hx => by simp [hfresh2 x hx]),
        List.filter_eq_self.mpr (fun x hx => by
          simp [expectedSegRows_sid ids now (ids 0) (p.segments.getD []) 0
            (resolveSpec ids now p st).2.2 x hx]),
        List.nil_append]
  have hper : (finalStore ids now p st).personas.filter
      (fun r => r.submission_id == ids 0) =
      expectedPersonaRows ids now (ids 0) (p.personas.getD []) 0
        ((resolveSpec ids now p st).2.2 + keptSegCount (p.segments.getD [])) := by
    show (st.personas ++ expectedPersonaRows ids now (ids 0) (p.personas.getD []) 0
        ((resolveSpec ids now p st).2.2 + keptSegCount (p.segments.getD []))).filter
        (fun r => r.submission_id == ids 0) = _
    rw [List.filter_append,
        List.filter_eq_nil_iff.mpr (fun x hx => by simp [hfresh3 x hx]),
        List.filter_eq_self.mpr (fun x hx => by
          simp [expectedPersonaRows_sid ids now (ids 0) (p.personas.getD []) 0
            ((resolveSpec ids now p st).2.2 + keptSegCount (p.segments.getD [])) x hx]),
        List.nil_append]
  have hsortSeg := sortSegRows_of_sorted _
    (expectedSegRows_sorted ids now (ids 0) (p.segments.getD []) 0
      (resolveSpec ids now p st).2.2)
  have hsortPer := sortPersonaRows_of_sorted _
    (expectedPersonaRows_sorted ids now (ids 0) (p.personas.getD []) 0
      ((resolveSpec ids now p st).2.2 + keptSegCount (p.segments.getD [])))
  simp only [get_submission, noFail, hfind, hseg, hper, hsortSeg, hsortPer]

theorem submit_get_round_trip_w :
    respOk.submission_id = some (ids0 0) ∧
    get_submission noFail (ids0 0) stC5 =
      .ok { parent := mkParentRow (ids0 0) ((resolveSpec ids0 "t0" pW5 st0).1.getD "") "t0" pW5
            segments := expectedSegRows ids0 "t0" (ids0 0) (pW5.segments.getD []) 0
              (resolveSpec ids0 "t0" pW5 st0).2.2
            personas := expectedPersonaRows ids0 "t0" (ids0 0) (pW5.personas.getD []) 0
              ((resolveSpec ids0 "t0" pW5 st0).2.2 + keptSegCount (pW5.segments.getD [])) } ∧
    (expectedSegRows ids0 "t0" (ids0 0) (pW5.segments.getD []) 0
        (resolveSpec ids0 "t0" pW5 st0).2.2).map (fun r => r.segment_order) =
      ((List.enumFrom 0 (pW5.segments.getD [])).filter
        (fun q => keptSeg q.2)).map (fun q => q.1) ∧
    (expectedPersonaRows ids0 "t0" (ids0 0) (pW5.personas.getD []) 0
        ((resolveSpec ids0 "t0" pW5 st0).2.2 + keptSegCount (pW5.segments.getD []))).map
        (fun r => r.persona_order) =
      ((List.enumFrom 0 (pW5.personas.getD [])).filter
        (fun q => keptPersona q.2)).map (fun q => q.1) :=
  submit_get_round_trip ids0 "t0" pW5 st0 respOk stC5 rfl
    (by simp [st0]) (by simp [st0]) (by simp [st0])
